import Mathlib

/-!
Verification of `share_capacity.py`: a shallow embedding of the report
generator's row construction, metadata tagging, deduplication, CSV rendering
and main control flow, with theorems checking the specification's claims.

Python floats are modelled as rationals (`ℚ`); byte strings as `List Nat`;
Python dicts as insertion-ordered association lists.  External collaborator
calls (cluster API) are oracle parameters returning `Except`.
-/

namespace ShareCapacity

/-- A metadata value as it arrives from the cluster API: a text string, a
byte string, or Python `None` (also the result of a missing `value` field). -/
inductive MetaValue where
  | str (s : String)
  | bytes (b : List Nat)
  | none
  deriving DecidableEq, Repr

/-- A value stored in a row's `tags` dict: after `get_user_metadata`'s
processing only text strings and `None` can remain. -/
inductive TagValue where
  | str (s : String)
  | null
  deriving DecidableEq, Repr

/-- Is a stored tag value a text string? -/
def TagValue.isStr : TagValue → Bool
  | .str _ => true
  | .null => false

/-- Is `b` a UTF-8 continuation byte (`0x80..0xBF`)? -/
def isContByte (b : Nat) : Bool :=
  decide (0x80 ≤ b) && decide (b < 0xC0)

/-- Valid range for the second byte of a three-byte UTF-8 sequence with lead
byte `b1` (excludes overlong forms and surrogates, as CPython does). -/
def validSecond3 (b1 b2 : Nat) : Bool :=
  if b1 = 0xE0 then decide (0xA0 ≤ b2) && decide (b2 < 0xC0)
  else if b1 = 0xED then decide (0x80 ≤ b2) && decide (b2 < 0xA0)
  else isContByte b2

/-- Valid range for the second byte of a four-byte UTF-8 sequence with lead
byte `b1` (excludes overlong forms and values above U+10FFFF). -/
def validSecond4 (b1 b2 : Nat) : Bool :=
  if b1 = 0xF0 then decide (0x90 ≤ b2) && decide (b2 < 0xC0)
  else if b1 = 0xF4 then decide (0x80 ≤ b2) && decide (b2 < 0x90)
  else isContByte b2

/-- Strict UTF-8 decoding, modelling Python `bytes.decode("utf-8")`:
`none` models a raised `UnicodeDecodeError`. -/
def utf8Decode? : List Nat → Option (List Char)
  | [] => some []
  | b1 :: rest =>
    if b1 < 0x80 then
      (utf8Decode? rest).map (fun cs => Char.ofNat b1 :: cs)
    else if b1 < 0xC2 then
      Option.none
    else if b1 < 0xE0 then
      match rest with
      | b2 :: rest2 =>
        if isContByte b2 then
          (utf8Decode? rest2).map
            (fun cs => Char.ofNat ((b1 - 0xC0) * 0x40 + (b2 - 0x80)) :: cs)
        else Option.none
      | [] => Option.none
    else if b1 < 0xF0 then
      match rest with
      | b2 :: b3 :: rest3 =>
        if validSecond3 b1 b2 && isContByte b3 then
          (utf8Decode? rest3).map
            (fun cs =>
              Char.ofNat ((b1 - 0xE0) * 0x1000 + (b2 - 0x80) * 0x40 + (b3 - 0x80)) :: cs)
        else Option.none
      | _ => Option.none
    else if b1 < 0xF5 then
      match rest with
      | b2 :: b3 :: b4 :: rest4 =>
        if validSecond4 b1 b2 && isContByte b3 && isContByte b4 then
          (utf8Decode? rest4).map
            (fun cs =>
              Char.ofNat ((b1 - 0xF0) * 0x40000 + (b2 - 0x80) * 0x1000 +
                (b3 - 0x80) * 0x40 + (b4 - 0x80)) :: cs)
        else Option.none
      | _ => Option.none
    else Option.none

/-- The Unicode replacement character U+FFFD. -/
def replacementChar : Char := Char.ofNat 0xFFFD

/-- Lossy UTF-8 decoding, modelling Python
`bytes.decode("utf-8", errors="replace")`: each maximal invalid subpart is
replaced by U+FFFD and decoding always succeeds. -/
def utf8Replace : List Nat → List Char
  | [] => []
  | b1 :: rest =>
    if b1 < 0x80 then Char.ofNat b1 :: utf8Replace rest
    else if b1 < 0xC2 then replacementChar :: utf8Replace rest
    else if b1 < 0xE0 then
      match rest with
      | b2 :: rest2 =>
        if isContByte b2 then
          Char.ofNat ((b1 - 0xC0) * 0x40 + (b2 - 0x80)) :: utf8Replace rest2
        else replacementChar :: utf8Replace (b2 :: rest2)
      | [] => [replacementChar]
    else if b1 < 0xF0 then
      match rest with
      | b2 :: rest2 =>
        if validSecond3 b1 b2 then
          match rest2 with
          | b3 :: rest3 =>
            if isContByte b3 then
              Char.ofNat ((b1 - 0xE0) * 0x1000 + (b2 - 0x80) * 0x40 + (b3 - 0x80)) ::
                utf8Replace rest3
            else replacementChar :: utf8Replace (b3 :: rest3)
          | [] => [replacementChar]
        else replacementChar :: utf8Replace (b2 :: rest2)
      | [] => [replacementChar]
    else if b1 < 0xF5 then
      match rest with
      | b2 :: rest2 =>
        if validSecond4 b1 b2 then
          match rest2 with
          | b3 :: rest3 =>
            if isContByte b3 then
              match rest3 with
              | b4 :: rest4 =>
                if isContByte b4 then
                  Char.ofNat ((b1 - 0xF0) * 0x40000 + (b2 - 0x80) * 0x1000 +
                    (b3 - 0x80) * 0x40 + (b4 - 0x80)) :: utf8Replace rest4
                else replacementChar :: utf8Replace (b4 :: rest4)
              | [] => [replacementChar]
            else replacementChar :: utf8Replace (b3 :: rest3)
          | [] => [replacementChar]
        else replacementChar :: utf8Replace (b2 :: rest2)
      | [] => [replacementChar]
    else replacementChar :: utf8Replace rest

/-- The per-value normalization inside `get_user_metadata`: a `bytes` value is
decoded strictly, falling back to lossy replacement on failure; `str` and
`None` values pass through unchanged. -/
def decodeValue : MetaValue → TagValue
  | .str s => .str s
  | .bytes b =>
    .str (match utf8Decode? b with
      | some cs => String.mk cs
      | Option.none => String.mk (utf8Replace b))
  | .none => .null

/-- One record of a metadata page: `key` is `record.get("key")` (`Option.none`
models a missing or null key), `value` is `record.get("value")`. -/
structure MetaRecord where
  key : Option String
  value : MetaValue
  deriving DecidableEq, Repr

/-- One page yielded by `fs.list_user_metadata`: `bad` models a page without a
`data` attribute or whose `data` is not a dict; `ok entries?` models a dict
page, with `entries?` equal to `Option.none` when the `entries` field is
absent (Python defaults it to `[]`). -/
inductive Page where
  | bad
  | ok (entries? : Option (List MetaRecord))
  deriving DecidableEq, Repr

/-- Is the page well-formed (has a dict `data`)? -/
def Page.isGood : Page → Bool
  | .bad => false
  | .ok _ => true

/-- Python dict assignment `d[k] = v` on an insertion-ordered association
list: an existing key keeps its position and gets the new value, a new key is
appended at the end. -/
def dictInsert {α : Type} (d : List (String × α)) (k : String) (v : α) :
    List (String × α) :=
  if d.any (fun p => p.1 = k) then
    d.map (fun p => if p.1 = k then (k, v) else p)
  else d ++ [(k, v)]

/-- Processing of one metadata record inside `get_user_metadata`'s loop. -/
def procRecord (tags : List (String × TagValue)) (r : MetaRecord) :
    List (String × TagValue) :=
  match r.key with
  | some k => dictInsert tags k (decodeValue r.value)
  | Option.none => tags

/-- Processing of one metadata page inside `get_user_metadata`'s loop:
malformed pages are skipped by `continue`. -/
def procPage (tags : List (String × TagValue)) (p : Page) :
    List (String × TagValue) :=
  match p with
  | .bad => tags
  | .ok entries? => (entries?.getD []).foldl procRecord tags

/-- `get_user_metadata`, given the pages yielded by the (external) paginated
iterator: folds every record of every well-formed page into the tags dict. -/
def get_user_metadata (pages : List Page) : List (String × TagValue) :=
  pages.foldl procPage []

/-- One row of the enumerated report, as built by `process_exposure_item`
(Python represents it as a 9-element list). -/
structure Row where
  protocol : String
  exposure_type : String
  name : String
  fs_path : String
  used_space : ℚ
  free_space : ℚ
  usable_space : ℚ
  used_pct : ℚ
  tags : List (String × TagValue)
  deriving DecidableEq, Repr

/-- An exposure record: SMB shares and NFS exports arrive as dicts (fields
looked up with `item[key]`), S3 buckets as attribute objects (`getattr`). -/
inductive Item where
  | dict (fields : List (String × String))
  | obj (attrs : List (String × String))
  deriving DecidableEq, Repr

/-- Field resolution of `process_exposure_item`: dict key lookup or attribute
lookup; `Option.none` models the `KeyError`/`AttributeError` case. -/
def Item.lookup : Item → String → Option String
  | .dict fields, k => (fields.find? (fun p => p.1 == k)).map Prod.snd
  | .obj attrs, k => (attrs.find? (fun p => p.1 == k)).map Prod.snd

/-- Errors that terminate a run: a CLI usage error, a failed name/path field
lookup, or an exception from an external API call (payload kept opaque). -/
inductive Err where
  | usage
  | lookupFailure
  | external (e : String)
  deriving DecidableEq, Repr

/-- The external collaborators (cluster management API), as oracles: each call
either returns data or raises. -/
structure Cluster where
  stats : Except String (ℚ × ℚ)
  smb_shares : Except String (List Item)
  nfs_exports : Except String (List Item)
  s3_buckets : Except String (List Item)
  dirAggregates : String → Except String ℚ
  metadataPages : String → Except String (List Page)

/-- Observable effects of a run, in order of occurrence. -/
inductive Event where
  | connect (host token : String)
  | callStats
  | callListShares
  | callListExports
  | callListBuckets
  | callDirAggregates (path : String)
  | callListMetadata (path : String)
  | writeCSV (filename : String) (cells : List (List String))
  | printLine (line : String)
  deriving DecidableEq, Repr

/-- `process_exposure_item` with its event trace: resolves name and path,
fetches the path capacity, computes `used_pct`, fetches the tags. -/
def process_exposure_itemT (item : Item)
    (protocol exposure_type name_key fs_path_key : String)
    (free_space usable_space : ℚ) (w : Cluster) :
    List Event × Except Err Row :=
  match item.lookup name_key, item.lookup fs_path_key with
  | some name, some fs_path =>
    match w.dirAggregates fs_path with
    | .error e => ([.callDirAggregates fs_path], .error (.external e))
    | .ok totalCapacity =>
      let used_space := totalCapacity / 1000000000
      let used_pct :=
        if free_space > 0 then used_space / (used_space + free_space) * 100 else 0
      match w.metadataPages fs_path with
      | .error e =>
        ([.callDirAggregates fs_path, .callListMetadata fs_path],
         .error (.external e))
      | .ok pages =>
        ([.callDirAggregates fs_path, .callListMetadata fs_path],
         .ok ⟨protocol, exposure_type, name, fs_path, used_space, free_space,
              usable_space, used_pct, get_user_metadata pages⟩)
  | _, _ => ([], .error .lookupFailure)

/-- `process_exposure_item` without its trace. -/
def process_exposure_item (item : Item)
    (protocol exposure_type name_key fs_path_key : String)
    (free_space usable_space : ℚ) (w : Cluster) : Except Err Row :=
  (process_exposure_itemT item protocol exposure_type name_key fs_path_key
    free_space usable_space w).2

/-- One of `main`'s per-protocol loops: processes each exposure to completion
before the next begins, stopping at the first error. -/
def processListT (items : List Item)
    (protocol exposure_type name_key fs_path_key : String)
    (free_space usable_space : ℚ) (w : Cluster) :
    List Event × Except Err (List Row) :=
  match items with
  | [] => ([], .ok [])
  | i :: is =>
    match process_exposure_itemT i protocol exposure_type name_key fs_path_key
        free_space usable_space w with
    | (t, .error e) => (t, .error e)
    | (t, .ok r) =>
      match processListT is protocol exposure_type name_key fs_path_key
          free_space usable_space w with
      | (t2, .error e) => (t ++ t2, .error e)
      | (t2, .ok rs) => (t ++ t2, .ok (r :: rs))

/-- The `data_rows` list built by `main` from the three listings: SMB rows,
then NFS rows, then S3 rows, with `main`'s literal label and key arguments. -/
def buildDataRows (shares exports buckets : List Item)
    (free_space usable_space : ℚ) (w : Cluster) : Except Err (List Row) :=
  match (processListT shares "SMB" "Share" "share_name" "fs_path"
      free_space usable_space w).2 with
  | .error e => .error e
  | .ok s =>
    match (processListT exports "NFS" "Export" "export_path" "fs_path"
        free_space usable_space w).2 with
    | .error e => .error e
    | .ok n =>
      match (processListT buckets "S3" "Bucket" "name" "path"
          free_space usable_space w).2 with
      | .error e => .error e
      | .ok b => .ok (s ++ n ++ b)

/-- Round to the nearest integer, ties to even — the rounding of Python's
fixed-point float formatting. -/
def roundHalfEven (x : ℚ) : ℤ :=
  let f := ⌊x⌋
  if x - f < 1 / 2 then f
  else if 1 / 2 < x - f then f + 1
  else if f % 2 = 0 then f else f + 1

/-- The three digits after the decimal point, zero-padded. -/
def pad3digits (n : ℕ) : String :=
  String.mk [Nat.digitChar (n / 100 % 10), Nat.digitChar (n / 10 % 10),
    Nat.digitChar (n % 10)]

/-- Python `f"{x:.3f}"` on the modelled rational value. -/
def formatFloat3 (q : ℚ) : String :=
  let n := (roundHalfEven (|q| * 1000)).toNat
  let s := toString (n / 1000) ++ "." ++ pad3digits (n % 1000)
  if q < 0 then "-" ++ s else s

/-- One hex/decimal digit of a `\uXXXX` escape. -/
def uescape4 (n : ℕ) : List Char :=
  ['\\', 'u', Nat.digitChar (n / 4096 % 16), Nat.digitChar (n / 256 % 16),
    Nat.digitChar (n / 16 % 16), Nat.digitChar (n % 16)]

/-- Escaping of one character by Python `json.dumps` (default
`ensure_ascii=True`). -/
def jsonEscapeChar (c : Char) : List Char :=
  if c = '"' then ['\\', '"']
  else if c = '\\' then ['\\', '\\']
  else if c = '\n' then ['\\', 'n']
  else if c = '\r' then ['\\', 'r']
  else if c = '\t' then ['\\', 't']
  else if c.toNat = 8 then ['\\', 'b']
  else if c.toNat = 12 then ['\\', 'f']
  else if c.toNat < 0x20 then uescape4 c.toNat
  else if c.toNat < 0x7F then [c]
  else if c.toNat < 0x10000 then uescape4 c.toNat
  else
    uescape4 (0xD800 + (c.toNat - 0x10000) / 0x400) ++
      uescape4 (0xDC00 + (c.toNat - 0x10000) % 0x400)

/-- A JSON string literal for `s`, as `json.dumps` renders it. -/
def jsonQuote (s : String) : String :=
  String.mk ('"' :: (s.data.map jsonEscapeChar).flatten ++ ['"'])

/-- JSON rendering of one stored tag value. -/
def TagValue.jsonRender : TagValue → String
  | .str s => jsonQuote s
  | .null => "null"

/-- `json.dumps`'s rendering of the members of a dict: `"key": value`
pairs joined by `", "` (the default separators). -/
def jsonMembersRender : List (String × TagValue) → String
  | [] => ""
  | [p] => jsonQuote p.1 ++ ": " ++ p.2.jsonRender
  | p :: q :: rest =>
    jsonQuote p.1 ++ ": " ++ p.2.jsonRender ++ ", " ++
      jsonMembersRender (q :: rest)

/-- `json.dumps` on a tags dict: the members between braces. -/
def jsonDumpsTags (tags : List (String × TagValue)) : String :=
  "\x7b" ++ jsonMembersRender tags ++ "\x7d"

/-- Header row of the enumerated CSV. -/
def enumHeader : List String :=
  ["Date", "Protocol", "Exposure Type", "Exposure Name", "Filesystem Path",
    "Path Used Space (GB)", "Cluster Free Space (GB)",
    "Cluster Usable Space (GB)", "Used %", "tags"]

/-- The cells of one enumerated data row, as `write_csv_enumerated` writes
them. -/
def renderEnumRow (date_str : String) (r : Row) : List String :=
  [date_str, r.protocol, r.exposure_type, r.name, r.fs_path,
    formatFloat3 r.used_space, formatFloat3 r.free_space,
    formatFloat3 r.usable_space, formatFloat3 r.used_pct,
    jsonDumpsTags r.tags]

/-- All cells written by `write_csv_enumerated`: header, then one row per
data row. -/
def renderEnumerated (date_str : String) (rows : List Row) :
    List (List String) :=
  enumHeader :: rows.map (renderEnumRow date_str)

/-- One deduplicated entry, as built by `deduplicate_rows`. -/
structure DedupRow where
  fs_path : String
  used_space : ℚ
  free_space : ℚ
  usable_space : ℚ
  used_pct : ℚ
  exposures : List String
  tags : List (String × TagValue)
  deriving DecidableEq, Repr

/-- The `f"{protocol}:{exposure_type}:{name}"` label of a row. -/
def exposureLabel (r : Row) : String :=
  r.protocol ++ ":" ++ r.exposure_type ++ ":" ++ r.name

/-- One iteration of `deduplicate_rows`' loop on the (insertion-ordered)
dict keyed by `fs_path`: a seen path appends its label, a new path appends a
full entry. -/
def dedupStep (d : List DedupRow) (row : Row) : List DedupRow :=
  if d.any (fun e => e.fs_path = row.fs_path) then
    d.map (fun e =>
      if e.fs_path = row.fs_path then
        { e with exposures := e.exposures ++ [exposureLabel row] }
      else e)
  else
    d ++ [{ fs_path := row.fs_path, used_space := row.used_space,
            free_space := row.free_space, usable_space := row.usable_space,
            used_pct := row.used_pct, exposures := [exposureLabel row],
            tags := row.tags }]

/-- `deduplicate_rows`: one pass over the rows, then `list(dedup.values())`
(insertion order). -/
def deduplicate_rows (data_rows : List Row) : List DedupRow :=
  data_rows.foldl dedupStep []

/-- Header row of the deduplicated CSV. -/
def dedupHeader : List String :=
  ["Date", "Filesystem Path", "Path Used Space (GB)",
    "Cluster Free Space (GB)", "Cluster Usable Space (GB)", "Used %",
    "Exposures", "tags"]

/-- The cells of one deduplicated data row, as `write_csv_dedup` writes
them. -/
def renderDedupRow (date_str : String) (r : DedupRow) : List String :=
  [date_str, r.fs_path, formatFloat3 r.used_space, formatFloat3 r.free_space,
    formatFloat3 r.usable_space, formatFloat3 r.used_pct,
    String.intercalate ", " r.exposures, jsonDumpsTags r.tags]

/-- All cells written by `write_csv_dedup`. -/
def renderDedup (date_str : String) (rows : List DedupRow) :
    List (List String) :=
  dedupHeader :: rows.map (renderDedupRow date_str)

/-- CLI arguments after `argparse` (absent string options are `None`). -/
structure Args where
  enumerate_exposures : Bool
  host : Option String
  access_token : Option String

/-- The optional `.config` YAML contents. -/
structure Config where
  host : Option String
  access_token : Option String

/-- Python `a if a else b` on an optional string (`None` and `""` are
falsy). -/
def pyOrElse (cli cfg : Option String) : Option String :=
  match cli with
  | some s => if s.isEmpty then cfg else some s
  | Option.none => cfg

/-- The body of `main` after credential resolution succeeds: connect, stats,
the three listing/processing phases, CSV write, stdout lines. -/
def mainBody (enumerate : Bool) (h tok today : String) (w : Cluster) :
    List Event × Except Err Unit :=
  let base := "qumulo_exposure_report_" ++ today
  let output_csv :=
    base ++ (if enumerate then "_enumerated.csv" else "_dedup.csv")
  let ev1 := [Event.connect h tok, Event.callStats]
  match w.stats with
  | .error e => (ev1, .error (.external e))
  | .ok (freeBytes, totalBytes) =>
    let free_space := freeBytes / 1000000000
    let usable_space := totalBytes / 1000000000
    let ev2 := ev1 ++ [Event.callListShares]
    match w.smb_shares with
    | .error e => (ev2, .error (.external e))
    | .ok smbShares =>
      match processListT smbShares "SMB" "Share" "share_name" "fs_path"
          free_space usable_space w with
      | (t1, .error e) => (ev2 ++ t1, .error e)
      | (t1, .ok smbRows) =>
        let ev3 := ev2 ++ t1 ++ [Event.callListExports]
        match w.nfs_exports with
        | .error e => (ev3, .error (.external e))
        | .ok nfsExports =>
          match processListT nfsExports "NFS" "Export" "export_path" "fs_path"
              free_space usable_space w with
          | (t2, .error e) => (ev3 ++ t2, .error e)
          | (t2, .ok nfsRows) =>
            let ev4 := ev3 ++ t2 ++ [Event.callListBuckets]
            match w.s3_buckets with
            | .error e => (ev4, .error (.external e))
            | .ok s3Buckets =>
              match processListT s3Buckets "S3" "Bucket" "name" "path"
                  free_space usable_space w with
              | (t3, .error e) => (ev4 ++ t3, .error e)
              | (t3, .ok s3Rows) =>
                let data_rows := smbRows ++ nfsRows ++ s3Rows
                let cells :=
                  if enumerate then renderEnumerated today data_rows
                  else renderDedup today (deduplicate_rows data_rows)
                let summary :=
                  "Summary: Processed " ++ toString smbShares.length ++
                    " SMB shares, " ++ toString nfsExports.length ++
                    " NFS exports, and " ++ toString s3Buckets.length ++
                    " S3 buckets (" ++
                    toString (smbShares.length + nfsExports.length +
                      s3Buckets.length) ++ " total exposures)."
                (ev4 ++ t3 ++
                  [Event.writeCSV output_csv cells,
                    Event.printLine ("Report written to " ++ output_csv),
                    Event.printLine summary], .ok ())

/-- `main`: resolve host and token (CLI first, then config, with Python
truthiness), fail with a usage error when either is missing, otherwise run
the report. -/
def mainRun (args : Args) (config : Config) (today : String) (w : Cluster) :
    List Event × Except Err Unit :=
  match pyOrElse args.host config.host,
      pyOrElse args.access_token config.access_token with
  | some h, some tok =>
    if h.isEmpty ∨ tok.isEmpty then ([], .error .usage)
    else mainBody args.enumerate_exposures h tok today w
  | _, _ => ([], .error .usage)

/-- Spec-side description of one deduplicated entry: the first row `r` seen
for a path supplies every capacity field and the tags, and the exposures are
`r`'s label followed by the labels of the later rows `rest` carrying the same
path, in input order. -/
def dedupEntry (r : Row) (rest : List Row) : DedupRow :=
  { fs_path := r.fs_path, used_space := r.used_space,
    free_space := r.free_space, usable_space := r.usable_space,
    used_pct := r.used_pct,
    exposures := exposureLabel r ::
      (rest.filter (fun x => x.fs_path = r.fs_path)).map exposureLabel,
    tags := r.tags }

/-- Spec-side description of deduplication, following the specification's
words: one entry per distinct path, in first-seen order, fields from the
first row, exposure labels of all rows with that path in input order. -/
def dedupSpecRows : List Row → List DedupRow
  | [] => []
  | r :: rs =>
    dedupEntry r rs ::
      dedupSpecRows (rs.filter (fun x => x.fs_path ≠ r.fs_path))
termination_by l => l.length
decreasing_by
  simp only [List.length_cons]
  exact Nat.lt_succ_of_le (List.length_filter_le _ _)

/-- Does an event write a file? -/
def Event.isWrite : Event → Bool
  | .writeCSV _ _ => true
  | _ => false

/-- Is an event a stdout line? -/
def Event.isPrint : Event → Bool
  | .printLine _ => true
  | _ => false

/-- The records a page contributes (a malformed page contributes none; a
well-formed page without an `entries` field contributes `[]`). -/
def pageRecords : Page → List MetaRecord
  | .bad => []
  | .ok entries? => entries?.getD []

/-- Dict lookup on the insertion-ordered association list. -/
def tagsLookup {α : Type} (tags : List (String × α)) (k : String) : Option α :=
  (tags.find? (fun p => p.1 == k)).map Prod.snd

/-- Printable ASCII (space through tilde), the scope of the round-trip
claim. -/
def PrintableAscii (s : String) : Prop :=
  ∀ c ∈ s.data, 0x20 ≤ c.toNat ∧ c.toNat ≤ 0x7E

instance (s : String) : Decidable (PrintableAscii s) := by
  unfold PrintableAscii
  infer_instance

/-- The two brace characters (ASCII 0x7B and 0x7D). -/
def leftBraceChar : Char := Char.ofNat 0x7B

/-- Closing brace character. -/
def rightBraceChar : Char := Char.ofNat 0x7D

/-- Reference JSON reader, string-literal body: consumes characters up to an
unescaped closing quote, handling the simple escapes. -/
def parseJStringBody : List Char → Option (List Char × List Char)
  | [] => Option.none
  | c :: cs =>
    if c = '"' then some ([], cs)
    else if c = '\\' then
      match cs with
      | e :: cs2 =>
        let unesc? : Option Char :=
          if e = '"' then some '"'
          else if e = '\\' then some '\\'
          else if e = '/' then some '/'
          else if e = 'n' then some '\n'
          else if e = 'r' then some '\r'
          else if e = 't' then some '\t'
          else if e = 'b' then some (Char.ofNat 8)
          else if e = 'f' then some (Char.ofNat 12)
          else Option.none
        match unesc? with
        | some u => (parseJStringBody cs2).map (fun p => (u :: p.1, p.2))
        | Option.none => Option.none
      | [] => Option.none
    else (parseJStringBody cs).map (fun p => (c :: p.1, p.2))

/-- Reference JSON reader, string literal: expects an opening quote. -/
def parseJValueStr : List Char → Option (String × List Char)
  | '"' :: rest => (parseJStringBody rest).map (fun p => (String.mk p.1, p.2))
  | _ => Option.none

/-- Skip blanks between JSON tokens. -/
def skipSpaces : List Char → List Char
  | [] => []
  | c :: cs => if c = ' ' then skipSpaces cs else c :: cs

/-- Reference JSON reader, object members: `"key": "value"` pairs separated
by commas, ending at the closing brace (fuel bounds the member count). -/
def parseJMembers : ℕ → List Char → Option (List (String × String) × List Char)
  | 0, _ => Option.none
  | fuel + 1, cs =>
    match parseJValueStr cs with
    | Option.none => Option.none
    | some (k, rest) =>
      match skipSpaces rest with
      | ':' :: rest2 =>
        match parseJValueStr (skipSpaces rest2) with
        | Option.none => Option.none
        | some (v, rest4) =>
          match skipSpaces rest4 with
          | c :: rest6 =>
            if c = ',' then
              (parseJMembers fuel (skipSpaces rest6)).map
                (fun p => ((k, v) :: p.1, p.2))
            else if c = rightBraceChar then some ([(k, v)], rest6)
            else Option.none
          | [] => Option.none
      | _ => Option.none

/-- Reference JSON reader for an object of string keys and string values:
the decoding side of the round-trip claim. -/
def jsonParseTags (s : String) : Option (List (String × String)) :=
  match skipSpaces s.data with
  | c :: rest =>
    if c = leftBraceChar then
      match skipSpaces rest with
      | d :: rest2 =>
        if d = rightBraceChar then
          if (skipSpaces rest2).isEmpty then some [] else Option.none
        else
          match parseJMembers s.data.length (skipSpaces rest) with
          | some (m, rest3) =>
            if (skipSpaces rest3).isEmpty then some m else Option.none
          | Option.none => Option.none
      | [] => Option.none
    else Option.none
  | [] => Option.none

instance {e a : Type} [DecidableEq e] [DecidableEq a] :
    DecidableEq (Except e a) := fun x y =>
  match x, y with
  | .error u, .error v => decidable_of_iff (u = v) (by simp)
  | .error _, .ok _ => isFalse (by simp)
  | .ok _, .error _ => isFalse (by simp)
  | .ok u, .ok v => decidable_of_iff (u = v) (by simp)

/-- The entry `deduplicate_rows` inserts when it first meets a path. -/
def newDedupEntry (row : Row) : DedupRow :=
  { fs_path := row.fs_path, used_space := row.used_space,
    free_space := row.free_space, usable_space := row.usable_space,
    used_pct := row.used_pct, exposures := [exposureLabel row],
    tags := row.tags }

/-- Proof helper: extend a dedup entry with the labels of the rows of `rows`
that carry its path. -/
def appendLabels (rows : List Row) (e : DedupRow) : DedupRow :=
  { e with exposures := e.exposures ++
      ((rows.filter (fun x => x.fs_path = e.fs_path)).map exposureLabel) }

/-! ## Theorems -/

theorem appendLabels_nil (e : DedupRow) : appendLabels [] e = e := by
  simp [appendLabels]

theorem appendLabels_dedupStepUpd (r : Row) (rs : List Row) (e : DedupRow) :
    appendLabels rs
      (if e.fs_path = r.fs_path then
        { e with exposures := e.exposures ++ [exposureLabel r] }
      else e) = appendLabels (r :: rs) e := by
  by_cases h : e.fs_path = r.fs_path
  · simp [appendLabels, h, List.filter_cons]
  · have h2 : ¬ r.fs_path = e.fs_path := fun hc => h hc.symm
    simp [appendLabels, h, List.filter_cons, h2]

theorem foldl_dedupStep_eq (rows : List Row) : ∀ d : List DedupRow,
    rows.foldl dedupStep d =
      d.map (appendLabels rows) ++
        dedupSpecRows
          (rows.filter
            (fun x => !(d.any (fun e => e.fs_path = x.fs_path)))) := by
  induction rows with
  | nil =>
    intro d
    have h1 : List.map (appendLabels []) d = d := by
      have h2 := List.map_congr_left (l := d) (f := appendLabels []) (g := id)
        (fun e _ => appendLabels_nil e)
      simpa using h2
    simp [h1, dedupSpecRows]
  | cons r rs ih =>
    intro d
    rw [List.foldl_cons, ih (dedupStep d r)]
    by_cases hd : (d.any (fun e => decide (e.fs_path = r.fs_path))) = true
    · -- the path of `r` is already a key of the dict
      have hstep : dedupStep d r =
          d.map (fun e =>
            if e.fs_path = r.fs_path then
              { e with exposures := e.exposures ++ [exposureLabel r] }
            else e) := by
        simp [dedupStep, hd]
      rw [hstep]
      have hmap : (d.map (fun e =>
          if e.fs_path = r.fs_path then
            { e with exposures := e.exposures ++ [exposureLabel r] }
          else e)).map (appendLabels rs) = d.map (appendLabels (r :: rs)) := by
        rw [List.map_map]
        exact List.map_congr_left
          (fun e _ => appendLabels_dedupStepUpd r rs e)
      have hpath : ∀ e : DedupRow,
          ((if e.fs_path = r.fs_path then
            { e with exposures := e.exposures ++ [exposureLabel r] }
          else e) : DedupRow).fs_path = e.fs_path := by
        intro e
        split <;> rfl
      have hfilter : (rs.filter (fun x =>
          !((d.map (fun e =>
            if e.fs_path = r.fs_path then
              { e with exposures := e.exposures ++ [exposureLabel r] }
            else e)).any (fun e => decide (e.fs_path = x.fs_path))))) =
          rs.filter (fun x => !(d.any (fun e => decide (e.fs_path = x.fs_path)))) := by
        apply List.filter_congr
        intro x _
        have hany : ((d.map (fun e =>
            if e.fs_path = r.fs_path then
              { e with exposures := e.exposures ++ [exposureLabel r] }
            else e)).any (fun e => decide (e.fs_path = x.fs_path))) =
            (d.any (fun e => decide (e.fs_path = x.fs_path))) := by
          rw [List.any_map]
          congr 1
          funext e
          simp only [Function.comp_apply]
          rw [hpath e]
        rw [hany]
      have hrfail : ((r :: rs).filter
          (fun x => !(d.any (fun e => decide (e.fs_path = x.fs_path))))) =
          rs.filter (fun x => !(d.any (fun e => decide (e.fs_path = x.fs_path)))) := by
        rw [List.filter_cons]
        have : (d.any (fun e => decide (e.fs_path = r.fs_path))) = true := hd
        simp [this]
      rw [hmap, hfilter, hrfail]
    · -- first occurrence of the path of `r`
      have hdf : (d.any (fun e => decide (e.fs_path = r.fs_path))) = false :=
        Bool.eq_false_iff.mpr hd
      have hstep : dedupStep d r = d ++ [newDedupEntry r] := by
        simp [dedupStep, newDedupEntry, hdf]
      rw [hstep]
      have hmem : ∀ e ∈ d, ¬ e.fs_path = r.fs_path := by
        intro e he
        have h3 := List.any_eq_false.mp hdf e he
        simpa using h3
      have hmapd : List.map (appendLabels rs) d =
          List.map (appendLabels (r :: rs)) d := by
        apply List.map_congr_left
        intro e he
        have h4 : ¬ r.fs_path = e.fs_path := fun hc => hmem e he hc.symm
        simp [appendLabels, List.filter_cons, h4]
      have hrpass : ((r :: rs).filter
          (fun x => !(d.any (fun e => decide (e.fs_path = x.fs_path))))) =
          r :: rs.filter
            (fun x => !(d.any (fun e => decide (e.fs_path = x.fs_path)))) := by
        rw [List.filter_cons]
        simp [hdf]
      rw [hrpass]
      conv_rhs => rw [dedupSpecRows]
      rw [List.map_append, List.map_cons, List.map_nil, List.append_assoc,
        List.singleton_append]
      have hfilterL : (rs.filter (fun x =>
          !((d ++ [newDedupEntry r]).any
            (fun e => decide (e.fs_path = x.fs_path))))) =
          rs.filter (fun x =>
            (!(d.any (fun e => decide (e.fs_path = x.fs_path)))) &&
              !(decide (r.fs_path = x.fs_path))) := by
        apply List.filter_congr
        intro x _
        simp [List.any_append, Bool.not_or, newDedupEntry]
      rw [hfilterL, hmapd]
      congr 1
      congr 1
      · -- the freshly inserted entry, once extended with the labels of the
        -- later rows on its path, is the spec-side entry
        have hfX : rs.filter (fun x => decide (x.fs_path = r.fs_path)) =
            rs.filter (fun x => decide (x.fs_path = r.fs_path) &&
              !(d.any (fun e => decide (e.fs_path = x.fs_path)))) := by
          apply List.filter_congr
          intro x _
          by_cases hx : x.fs_path = r.fs_path
          · simp [hx, hdf]
          · simp [hx]
        simp [appendLabels, dedupEntry, newDedupEntry, ← hfX]
      · -- tails agree: rows on already-seen paths and on the new path drop out
        have htail : rs.filter (fun x =>
            (!(d.any (fun e => decide (e.fs_path = x.fs_path)))) &&
              !(decide (r.fs_path = x.fs_path))) =
            (rs.filter
              (fun x => !(d.any (fun e => decide (e.fs_path = x.fs_path))))).filter
              (fun x => decide (x.fs_path ≠ r.fs_path)) := by
          rw [List.filter_filter]
          apply List.filter_congr
          intro x _
          by_cases hx : x.fs_path = r.fs_path
          · simp [hx]
          · have h5 : ¬ r.fs_path = x.fs_path := fun hc => hx hc.symm
            simp [hx, h5]
        rw [htail]

theorem deduplicate_rows_eq_spec (rows : List Row) :
    deduplicate_rows rows = dedupSpecRows rows := by
  have h := foldl_dedupStep_eq rows []
  simpa [deduplicate_rows] using h

theorem dedupSpecRows_path_sub (rows : List Row) :
    ∀ e ∈ dedupSpecRows rows, e.fs_path ∈ rows.map Row.fs_path := by
  induction rows using dedupSpecRows.induct with
  | case1 => simp [dedupSpecRows]
  | case2 r rs ih =>
    intro e he
    rw [dedupSpecRows] at he
    rcases List.mem_cons.mp he with h | h
    · subst h
      simp [dedupEntry]
    · have h2 := ih e h
      rcases List.mem_map.mp h2 with ⟨x, hx, hxe⟩
      have hx2 : x ∈ rs := List.mem_of_mem_filter hx
      exact List.mem_map.mpr ⟨x, List.mem_cons_of_mem _ hx2, hxe⟩

theorem dedupSpecRows_paths_nodup (rows : List Row) :
    ((dedupSpecRows rows).map DedupRow.fs_path).Nodup := by
  induction rows using dedupSpecRows.induct with
  | case1 => simp [dedupSpecRows]
  | case2 r rs ih =>
    rw [dedupSpecRows]
    simp only [List.map_cons, List.nodup_cons]
    constructor
    · intro hmem
      rcases List.mem_map.mp hmem with ⟨e, he, hep⟩
      have h2 := dedupSpecRows_path_sub _ e he
      rcases List.mem_map.mp h2 with ⟨x, hx, hxe⟩
      have hx2 := List.of_mem_filter hx
      simp only [decide_eq_true_eq] at hx2
      exact hx2 (by rw [hxe, hep, dedupEntry])
    · exact ih

theorem dedupSpecRows_paths_iff (rows : List Row) (p : String) :
    p ∈ (dedupSpecRows rows).map DedupRow.fs_path ↔
      p ∈ rows.map Row.fs_path := by
  constructor
  · intro h
    rcases List.mem_map.mp h with ⟨e, he, hep⟩
    subst hep
    exact dedupSpecRows_path_sub rows e he
  · intro h
    induction rows using dedupSpecRows.induct with
    | case1 => simp at h
    | case2 r rs ih =>
      rw [dedupSpecRows]
      simp only [List.map_cons, List.mem_cons]
      by_cases hp : p = r.fs_path
      · left
        rw [hp, dedupEntry]
      · right
        simp only [List.map_cons, List.mem_cons] at h
        rcases h with h | h
        · exact absurd h.symm (fun hc => hp hc.symm)
        · rcases List.mem_map.mp h with ⟨x, hx, hxe⟩
          apply ih
          refine List.mem_map.mpr ⟨x, ?_, hxe⟩
          refine List.mem_filter.mpr ⟨hx, ?_⟩
          simp only [decide_eq_true_eq]
          intro hc
          exact hp (by rw [← hxe, hc])

/-- C1: `deduplicate_rows` returns exactly one entry per distinct `fs_path`,
in first-seen order; each entry's capacity fields and tags are those of the
first input row carrying its path; each entry's `exposures` are the
`"protocol:exposure_type:name"` labels of all input rows carrying its path,
in input order.  (`dedupSpecRows` is the spec-side description with exactly
these properties; the path list is additionally shown duplicate-free and to
cover exactly the input paths.) -/
theorem C1_deduplicate_rows_correct (rows : List Row) :
    deduplicate_rows rows = dedupSpecRows rows ∧
      ((deduplicate_rows rows).map DedupRow.fs_path).Nodup ∧
      (∀ p, p ∈ (deduplicate_rows rows).map DedupRow.fs_path ↔
        p ∈ rows.map Row.fs_path) := by
  refine ⟨deduplicate_rows_eq_spec rows, ?_, ?_⟩
  · rw [deduplicate_rows_eq_spec rows]
    exact dedupSpecRows_paths_nodup rows
  · intro p
    rw [deduplicate_rows_eq_spec rows]
    exact dedupSpecRows_paths_iff rows p

/-- C2: every row built by `process_exposure_item` with `used_space ≥ 0` has
`used_pct = used/(used+free)*100` when `free_space > 0` and exactly `0` when
`free_space ≤ 0`, and `used_pct` is never negative.  (Floats are modelled as
rationals, where no NaN exists; the guard `free_space > 0` makes the
denominator positive, which is what excludes NaN in the float reading.) -/
theorem C2_used_pct_correct (item : Item)
    (protocol exposure_type name_key fs_path_key : String)
    (free_space usable_space : ℚ) (w : Cluster) (row : Row)
    (hok : process_exposure_item item protocol exposure_type name_key
      fs_path_key free_space usable_space w = .ok row)
    (hnn : 0 ≤ row.used_space) :
    (row.used_pct = if 0 < row.free_space then
      row.used_space / (row.used_space + row.free_space) * 100 else 0) ∧
      0 ≤ row.used_pct := by
  rcases hn : item.lookup name_key with _ | name
  · simp [process_exposure_item, process_exposure_itemT, hn] at hok
  rcases hp : item.lookup fs_path_key with _ | fs_path
  · simp [process_exposure_item, process_exposure_itemT, hn, hp] at hok
  rcases hc : w.dirAggregates fs_path with e | cap
  · simp [process_exposure_item, process_exposure_itemT, hn, hp, hc] at hok
  rcases hm : w.metadataPages fs_path with e | pages
  · simp [process_exposure_item, process_exposure_itemT, hn, hp, hc, hm] at hok
  simp only [process_exposure_item, process_exposure_itemT, hn, hp, hc, hm,
    Except.ok.injEq] at hok
  subst hok
  simp only at hnn
  refine ⟨rfl, ?_⟩
  simp only
  split
  · rename_i hfree
    have hden : 0 < cap / 1000000000 + free_space :=
      add_pos_of_nonneg_of_pos hnn hfree
    exact mul_nonneg (div_nonneg hnn (le_of_lt hden)) (by norm_num)
  · exact le_refl 0

/-- Witness for C2 at a concrete share: used 2 GB, cluster free 8 GB. -/
theorem C2_used_pct_correct_witness :
    process_exposure_item
      (Item.dict [("share_name", "eng"), ("fs_path", "/eng")])
      "SMB" "Share" "share_name" "fs_path" 8 20
      { stats := .ok (8000000000, 20000000000), smb_shares := .ok [],
        nfs_exports := .ok [], s3_buckets := .ok [],
        dirAggregates := fun _ => .ok 2000000000,
        metadataPages := fun _ => .ok [] } =
      .ok ⟨"SMB", "Share", "eng", "/eng", 2000000000 / 1000000000, 8, 20,
        if (8 : ℚ) > 0 then
          2000000000 / 1000000000 / (2000000000 / 1000000000 + 8) * 100
        else 0, []⟩ ∧
    (0 : ℚ) ≤ (Row.mk "SMB" "Share" "eng" "/eng" (2000000000 / 1000000000) 8
      20 (if (8 : ℚ) > 0 then
        2000000000 / 1000000000 / (2000000000 / 1000000000 + 8) * 100
      else 0) []).used_space ∧
    (((Row.mk "SMB" "Share" "eng" "/eng" (2000000000 / 1000000000) 8 20
        (if (8 : ℚ) > 0 then
          2000000000 / 1000000000 / (2000000000 / 1000000000 + 8) * 100
        else 0) []).used_pct =
      if 0 < (Row.mk "SMB" "Share" "eng" "/eng" (2000000000 / 1000000000) 8 20
          (if (8 : ℚ) > 0 then
            2000000000 / 1000000000 / (2000000000 / 1000000000 + 8) * 100
          else 0) []).free_space then
        (Row.mk "SMB" "Share" "eng" "/eng" (2000000000 / 1000000000) 8 20
          (if (8 : ℚ) > 0 then
            2000000000 / 1000000000 / (2000000000 / 1000000000 + 8) * 100
          else 0) []).used_space /
          ((Row.mk "SMB" "Share" "eng" "/eng" (2000000000 / 1000000000) 8 20
            (if (8 : ℚ) > 0 then
              2000000000 / 1000000000 / (2000000000 / 1000000000 + 8) * 100
            else 0) []).used_space +
           (Row.mk "SMB" "Share" "eng" "/eng" (2000000000 / 1000000000) 8 20
            (if (8 : ℚ) > 0 then
              2000000000 / 1000000000 / (2000000000 / 1000000000 + 8) * 100
            else 0) []).free_space) * 100
      else 0) ∧
      (0 : ℚ) ≤ (Row.mk "SMB" "Share" "eng" "/eng" (2000000000 / 1000000000)
        8 20 (if (8 : ℚ) > 0 then
          2000000000 / 1000000000 / (2000000000 / 1000000000 + 8) * 100
        else 0) []).used_pct) := by
  refine ⟨rfl, by norm_num, ?_⟩
  exact C2_used_pct_correct
    (Item.dict [("share_name", "eng"), ("fs_path", "/eng")])
    "SMB" "Share" "share_name" "fs_path" 8 20
    { stats := .ok (8000000000, 20000000000), smb_shares := .ok [],
      nfs_exports := .ok [], s3_buckets := .ok [],
      dirAggregates := fun _ => .ok 2000000000,
      metadataPages := fun _ => .ok [] }
    ⟨"SMB", "Share", "eng", "/eng", 2000000000 / 1000000000, 8, 20,
      if (8 : ℚ) > 0 then
        2000000000 / 1000000000 / (2000000000 / 1000000000 + 8) * 100
      else 0, []⟩
    rfl (by norm_num)

theorem foldl_procPage_filter (pages : List Page) :
    ∀ init, pages.foldl procPage init =
      (pages.filter Page.isGood).foldl procPage init := by
  induction pages with
  | nil => intro init; rfl
  | cons pg ps ih =>
    intro init
    cases pg with
    | bad => simpa [procPage, Page.isGood] using ih init
    | ok entries? =>
      simp only [List.filter_cons, Page.isGood, List.foldl_cons, if_pos]
      exact ih (procPage init (Page.ok entries?))

/-- C6: `get_user_metadata` skips pages without the expected shape without
raising: the result is built solely from the well-formed pages (so no row is
dropped), and is empty when every page is malformed. -/
theorem C6_malformed_pages_skipped (pages : List Page) :
    get_user_metadata pages = get_user_metadata (pages.filter Page.isGood) ∧
      ((∀ p ∈ pages, p = Page.bad) → get_user_metadata pages = []) := by
  constructor
  · exact foldl_procPage_filter pages []
  · intro hall
    unfold get_user_metadata
    rw [foldl_procPage_filter pages []]
    have hnil : pages.filter Page.isGood = [] := by
      rw [List.filter_eq_nil_iff]
      intro p hp
      rw [hall p hp]
      simp [Page.isGood]
    rw [hnil]
    rfl

/-- Witness for C6: a run whose every metadata page is malformed yields the
empty tags dict. -/
theorem C6_malformed_pages_skipped_witness :
    get_user_metadata [Page.bad] = [] :=
  (C6_malformed_pages_skipped [Page.bad]).2 (by decide)

theorem find?_map_keyUpdate_ne (d : List (String × TagValue)) (k : String)
    (v : TagValue) (k' : String) (hne : k' ≠ k) :
    ((d.map (fun p => if p.1 = k then (k, v) else p)).find?
      (fun p => p.1 == k')) = d.find? (fun p => p.1 == k') := by
  induction d with
  | nil => rfl
  | cons a d ih =>
    simp only [List.map_cons]
    by_cases ha : a.1 = k
    · have hkk' : (k == k') = false := by
        rw [beq_eq_false_iff_ne]
        exact fun hc => hne hc.symm
      rw [if_pos ha]
      simp only [List.find?_cons, ha, hkk']
      exact ih
    · rw [if_neg ha]
      by_cases hk' : (a.1 == k') = true
      · simp [List.find?_cons, hk']
      · have hf : (a.1 == k') = false := Bool.eq_false_iff.mpr hk'
        simp [List.find?_cons, hf, ih]

theorem find?_map_keyUpdate_eq (d : List (String × TagValue)) (k : String)
    (v : TagValue) (hmem : d.any (fun p => decide (p.1 = k)) = true) :
    ((d.map (fun p => if p.1 = k then (k, v) else p)).find?
      (fun p => p.1 == k)) = some (k, v) := by
  induction d with
  | nil => simp at hmem
  | cons a d ih =>
    simp only [List.map_cons]
    by_cases ha : a.1 = k
    · rw [if_pos ha]
      simp [List.find?_cons]
    · rw [if_neg ha]
      have h2 : (a.1 == k) = false := by
        rw [beq_eq_false_iff_ne]
        exact ha
      simp only [List.find?_cons, h2]
      apply ih
      simp only [List.any_cons, Bool.or_eq_true, decide_eq_true_eq] at hmem
      rcases hmem with h | h
      · exact absurd h ha
      · exact h

theorem find?_eq_none_of_any_false (d : List (String × TagValue)) (k : String)
    (hmem : d.any (fun p => decide (p.1 = k)) = false) :
    d.find? (fun p => p.1 == k) = Option.none := by
  rw [List.find?_eq_none]
  intro p hp
  have h := List.any_eq_false.mp hmem p hp
  simpa using h

theorem tagsLookup_dictInsert (d : List (String × TagValue)) (k : String)
    (v : TagValue) (k' : String) :
    tagsLookup (dictInsert d k v) k' =
      if k' = k then some v else tagsLookup d k' := by
  unfold dictInsert tagsLookup
  by_cases hmem : d.any (fun p => decide (p.1 = k)) = true
  · rw [if_pos hmem]
    by_cases hk : k' = k
    · subst hk
      rw [if_pos rfl, find?_map_keyUpdate_eq d k' v hmem]
      rfl
    · rw [if_neg hk, find?_map_keyUpdate_ne d k v k' hk]
  · have hmf : d.any (fun p => decide (p.1 = k)) = false :=
      Bool.eq_false_iff.mpr hmem
    rw [if_neg hmem, List.find?_append]
    by_cases hk : k' = k
    · subst hk
      rw [if_pos rfl, find?_eq_none_of_any_false d k' hmf]
      simp
    · rw [if_neg hk]
      have h1 : (((k, v)).1 == k') = false := by
        simp only [beq_eq_false_iff_ne, ne_eq]
        exact fun hc => hk hc.symm
      cases hf : d.find? (fun p => p.1 == k') with
      | none => simp [hf, List.find?, h1]
      | some p => simp [hf]

theorem foldl_procRecord_lookup (records : List MetaRecord) :
    ∀ (init : List (String × TagValue)) (k : String),
      tagsLookup (records.foldl procRecord init) k =
        match records.reverse.find? (fun r => r.key == some k) with
        | some r => some (decodeValue r.value)
        | Option.none => tagsLookup init k := by
  induction records with
  | nil => intro init k; rfl
  | cons r rs ih =>
    intro init k
    rw [List.foldl_cons, ih (procRecord init r) k, List.reverse_cons,
      List.find?_append]
    cases hfind : rs.reverse.find? (fun r => r.key == some k) with
    | some r' => simp
    | none =>
      simp only [Option.none_orElse]
      cases hkey : r.key with
      | none =>
        have hr : (r.key == some k) = false := by simp [hkey]
        simp only [List.find?_cons, hr, List.find?_nil]
        simp [procRecord, hkey]
      | some k0 =>
        by_cases hk0 : k0 = k
        · subst hk0
          have hr : (r.key == some k0) = true := by simp [hkey]
          simp only [List.find?_cons, hr]
          simp [procRecord, hkey, tagsLookup_dictInsert]
        · have hr : (r.key == some k) = false := by simp [hkey, hk0]
          simp only [List.find?_cons, hr, List.find?_nil]
          simp only [procRecord, hkey]
          rw [tagsLookup_dictInsert]
          rw [if_neg (fun hc => hk0 hc.symm)]
          simp

theorem foldl_procPage_lookup (pages : List Page) :
    ∀ (init : List (String × TagValue)) (k : String),
      tagsLookup (pages.foldl procPage init) k =
        match ((pages.map pageRecords).flatten).reverse.find?
            (fun r => r.key == some k) with
        | some r => some (decodeValue r.value)
        | Option.none => tagsLookup init k := by
  induction pages with
  | nil => intro init k; rfl
  | cons pg ps ih =>
    intro init k
    have hpp : procPage init pg = (pageRecords pg).foldl procRecord init := by
      cases pg <;> rfl
    rw [List.foldl_cons, ih (procPage init pg) k, hpp,
      foldl_procRecord_lookup (pageRecords pg) init k]
    simp only [List.map_cons, List.flatten_cons, List.reverse_append,
      List.find?_append]
    cases hA : ((ps.map pageRecords).flatten).reverse.find?
        (fun r => r.key == some k) with
    | some r' => simp
    | none => simp

/-- C10: the tags mapping maps each key to the decoded value of the last
record bearing that key (later records overwrite earlier ones, within and
across pages), and records with an absent or null key contribute nothing:
lookup is fully characterized by the last record whose `key` equals
`some k`. -/
theorem C10_tags_last_record_wins (pages : List Page) (k : String) :
    tagsLookup (get_user_metadata pages) k =
      (((pages.map pageRecords).flatten).reverse.find?
        (fun r => r.key == some k)).map (fun r => decodeValue r.value) := by
  have h := foldl_procPage_lookup pages [] k
  unfold get_user_metadata
  rw [h]
  cases hf : ((pages.map pageRecords).flatten).reverse.find?
      (fun r => r.key == some k) with
  | some r => simp
  | none => simp [tagsLookup]

/-- C4 counterexample: a record whose `value` field is absent (Python `None`,
a non-string value) is stored as `None`, not decoded to a UTF-8 string: the
claim "any non-string metadata value is decoded to UTF-8 text" fails. -/
theorem C4_counterexample :
    get_user_metadata [Page.ok (some [⟨some "k", MetaValue.none⟩])] =
      [("k", TagValue.null)] ∧ TagValue.null.isStr = false := by
  constructor
  · rfl
  · rfl

/-- C4 amended: any `bytes` metadata value is decoded to UTF-8 text — the
strict decoding when it succeeds, the lossy-replacement decoding when it
fails — never dropped and never an error; values that are neither strings
nor bytes (Python `None`) are stored unchanged rather than decoded. -/
theorem C4_bytes_decoded (b : List Nat) :
    (∃ s : String, decodeValue (MetaValue.bytes b) = TagValue.str s) ∧
      (∀ cs : List Char, utf8Decode? b = some cs →
        decodeValue (MetaValue.bytes b) = TagValue.str (String.mk cs)) ∧
      (utf8Decode? b = Option.none →
        decodeValue (MetaValue.bytes b) =
          TagValue.str (String.mk (utf8Replace b))) ∧
      decodeValue MetaValue.none = TagValue.null := by
  refine ⟨?_, ?_, ?_, rfl⟩
  · cases h : utf8Decode? b with
    | some cs => exact ⟨String.mk cs, by simp [decodeValue, h]⟩
    | none => exact ⟨String.mk (utf8Replace b), by simp [decodeValue, h]⟩
  · intro cs h
    simp [decodeValue, h]
  · intro h
    simp [decodeValue, h]

/-- Witness for C4 at the invalid byte `0xFF`: strict decoding fails and the
stored value is the lossy decoding (the replacement character). -/
theorem C4_bytes_decoded_witness :
    utf8Decode? [0xFF] = Option.none ∧
      decodeValue (MetaValue.bytes [0xFF]) =
        TagValue.str (String.mk (utf8Replace [0xFF])) :=
  ⟨by decide, (C4_bytes_decoded [0xFF]).2.2.1 (by decide)⟩

theorem processListT_ok (proto ety nk pk : String) (free usable : ℚ)
    (w : Cluster) :
    ∀ (items : List Item) (rows : List Row),
      (processListT items proto ety nk pk free usable w).2 = .ok rows →
      List.Forall₂
        (fun i r =>
          process_exposure_item i proto ety nk pk free usable w = .ok r)
        items rows := by
  intro items
  induction items with
  | nil =>
    intro rows h
    simp only [processListT, Except.ok.injEq] at h
    subst h
    constructor
  | cons i is ih =>
    intro rows h
    simp only [processListT] at h
    rcases hx : process_exposure_itemT i proto ety nk pk free usable w
      with ⟨t, res⟩
    rw [hx] at h
    cases res with
    | error e => simp at h
    | ok r =>
      rcases hy : processListT is proto ety nk pk free usable w with ⟨t2, res2⟩
      rw [hy] at h
      cases res2 with
      | error e => simp at h
      | ok rs =>
        simp only [Except.ok.injEq] at h
        subst h
        constructor
        · unfold process_exposure_item
          rw [hx]
        · apply ih
          rw [hy]

theorem process_exposure_item_fields (i : Item)
    (proto ety nk pk : String) (free usable : ℚ) (w : Cluster) (r : Row)
    (h : process_exposure_item i proto ety nk pk free usable w = .ok r) :
    r.protocol = proto ∧ r.exposure_type = ety ∧
      i.lookup nk = some r.name ∧ i.lookup pk = some r.fs_path ∧
      r.free_space = free ∧ r.usable_space = usable := by
  rcases hn : i.lookup nk with _ | name
  · simp [process_exposure_item, process_exposure_itemT, hn] at h
  rcases hp : i.lookup pk with _ | fs_path
  · simp [process_exposure_item, process_exposure_itemT, hn, hp] at h
  rcases hc : w.dirAggregates fs_path with e | cap
  · simp [process_exposure_item, process_exposure_itemT, hn, hp, hc] at h
  rcases hm : w.metadataPages fs_path with e | pages
  · simp [process_exposure_item, process_exposure_itemT, hn, hp, hc, hm] at h
  simp only [process_exposure_item, process_exposure_itemT, hn, hp, hc, hm,
    Except.ok.injEq] at h
  subst h
  exact ⟨rfl, rfl, rfl, rfl, rfl, rfl⟩

/-- C3: for fetchers returning `N` SMB, `M` NFS and `K` S3 records, the
enumerated report has exactly `N+M+K` data rows (one header row on top): all
SMB rows first (protocol "SMB", type "Share", name from `share_name`, path
from `fs_path`), then all NFS rows ("NFS"/"Export", name from `export_path`),
then all S3 rows ("S3"/"Bucket", name from `name`, path from `path`), each
group paired with its source listing in order. -/
theorem C3_enumerated_rows (shares exports buckets : List Item)
    (free_space usable_space : ℚ) (w : Cluster) (rows : List Row)
    (hok : buildDataRows shares exports buckets free_space usable_space w =
      .ok rows) :
    ∃ s n b, rows = s ++ n ++ b ∧
      List.Forall₂ (fun (i : Item) (r : Row) => r.protocol = "SMB" ∧
        r.exposure_type = "Share" ∧ i.lookup "share_name" = some r.name ∧
        i.lookup "fs_path" = some r.fs_path) shares s ∧
      List.Forall₂ (fun (i : Item) (r : Row) => r.protocol = "NFS" ∧
        r.exposure_type = "Export" ∧ i.lookup "export_path" = some r.name ∧
        i.lookup "fs_path" = some r.fs_path) exports n ∧
      List.Forall₂ (fun (i : Item) (r : Row) => r.protocol = "S3" ∧
        r.exposure_type = "Bucket" ∧ i.lookup "name" = some r.name ∧
        i.lookup "path" = some r.fs_path) buckets b ∧
      rows.length = shares.length + exports.length + buckets.length ∧
      (∀ date_str : String, (renderEnumerated date_str rows).length =
        1 + (shares.length + exports.length + buckets.length)) := by
  rcases hs : (processListT shares "SMB" "Share" "share_name" "fs_path"
      free_space usable_space w).2 with e | s
  · simp [buildDataRows, hs] at hok
  rcases hn : (processListT exports "NFS" "Export" "export_path" "fs_path"
      free_space usable_space w).2 with e | n
  · simp [buildDataRows, hs, hn] at hok
  rcases hb : (processListT buckets "S3" "Bucket" "name" "path"
      free_space usable_space w).2 with e | b
  · simp [buildDataRows, hs, hn, hb] at hok
  have hrows : rows = s ++ n ++ b := by
    simp only [buildDataRows, hs, hn, hb, Except.ok.injEq] at hok
    exact hok.symm
  have hfs := processListT_ok "SMB" "Share" "share_name" "fs_path"
    free_space usable_space w shares s hs
  have hfn := processListT_ok "NFS" "Export" "export_path" "fs_path"
    free_space usable_space w exports n hn
  have hfb := processListT_ok "S3" "Bucket" "name" "path"
    free_space usable_space w buckets b hb
  refine ⟨s, n, b, hrows, ?_, ?_, ?_, ?_, ?_⟩
  · exact hfs.imp (fun _ _ hir => by
      have h := process_exposure_item_fields _ _ _ _ _ _ _ _ _ hir
      exact ⟨h.1, h.2.1, h.2.2.1, h.2.2.2.1⟩)
  · exact hfn.imp (fun _ _ hir => by
      have h := process_exposure_item_fields _ _ _ _ _ _ _ _ _ hir
      exact ⟨h.1, h.2.1, h.2.2.1, h.2.2.2.1⟩)
  · exact hfb.imp (fun _ _ hir => by
      have h := process_exposure_item_fields _ _ _ _ _ _ _ _ _ hir
      exact ⟨h.1, h.2.1, h.2.2.1, h.2.2.2.1⟩)
  · rw [hrows]
    simp [List.length_append, hfs.length_eq, hfn.length_eq, hfb.length_eq]
    omega
  · intro date_str
    rw [renderEnumerated]
    simp only [List.length_cons, List.length_map]
    rw [hrows]
    simp [List.length_append, hfs.length_eq, hfn.length_eq, hfb.length_eq]
    omega

/-- Witness for C3: one share, one export, one bucket produce three data
rows in SMB, NFS, S3 order. -/
theorem C3_enumerated_rows_witness :
    buildDataRows [Item.dict [("share_name", "a"), ("fs_path", "/a")]]
      [Item.dict [("export_path", "/e"), ("fs_path", "/e")]]
      [Item.obj [("name", "b"), ("path", "/b")]] 8 20
      { stats := .ok (8000000000, 20000000000), smb_shares := .ok [],
        nfs_exports := .ok [], s3_buckets := .ok [],
        dirAggregates := fun _ => .ok 1000000000,
        metadataPages := fun _ => .ok [] } =
      .ok [⟨"SMB", "Share", "a", "/a", 1000000000 / 1000000000, 8, 20,
        if (8 : ℚ) > 0 then
          1000000000 / 1000000000 / (1000000000 / 1000000000 + 8) * 100
        else 0, []⟩,
        ⟨"NFS", "Export", "/e", "/e", 1000000000 / 1000000000, 8, 20,
        if (8 : ℚ) > 0 then
          1000000000 / 1000000000 / (1000000000 / 1000000000 + 8) * 100
        else 0, []⟩,
        ⟨"S3", "Bucket", "b", "/b", 1000000000 / 1000000000, 8, 20,
        if (8 : ℚ) > 0 then
          1000000000 / 1000000000 / (1000000000 / 1000000000 + 8) * 100
        else 0, []⟩] ∧
    (∃ s n b, ([⟨"SMB", "Share", "a", "/a", 1000000000 / 1000000000, 8, 20,
        if (8 : ℚ) > 0 then
          1000000000 / 1000000000 / (1000000000 / 1000000000 + 8) * 100
        else 0, []⟩,
        ⟨"NFS", "Export", "/e", "/e", 1000000000 / 1000000000, 8, 20,
        if (8 : ℚ) > 0 then
          1000000000 / 1000000000 / (1000000000 / 1000000000 + 8) * 100
        else 0, []⟩,
        ⟨"S3", "Bucket", "b", "/b", 1000000000 / 1000000000, 8, 20,
        if (8 : ℚ) > 0 then
          1000000000 / 1000000000 / (1000000000 / 1000000000 + 8) * 100
        else 0, []⟩] : List Row) = s ++ n ++ b ∧
      List.Forall₂ (fun (i : Item) (r : Row) => r.protocol = "SMB" ∧
        r.exposure_type = "Share" ∧ i.lookup "share_name" = some r.name ∧
        i.lookup "fs_path" = some r.fs_path)
        [Item.dict [("share_name", "a"), ("fs_path", "/a")]] s ∧
      List.Forall₂ (fun (i : Item) (r : Row) => r.protocol = "NFS" ∧
        r.exposure_type = "Export" ∧ i.lookup "export_path" = some r.name ∧
        i.lookup "fs_path" = some r.fs_path)
        [Item.dict [("export_path", "/e"), ("fs_path", "/e")]] n ∧
      List.Forall₂ (fun (i : Item) (r : Row) => r.protocol = "S3" ∧
        r.exposure_type = "Bucket" ∧ i.lookup "name" = some r.name ∧
        i.lookup "path" = some r.fs_path)
        [Item.obj [("name", "b"), ("path", "/b")]] b ∧
      ([⟨"SMB", "Share", "a", "/a", 1000000000 / 1000000000, 8, 20,
        if (8 : ℚ) > 0 then
          1000000000 / 1000000000 / (1000000000 / 1000000000 + 8) * 100
        else 0, []⟩,
        ⟨"NFS", "Export", "/e", "/e", 1000000000 / 1000000000, 8, 20,
        if (8 : ℚ) > 0 then
          1000000000 / 1000000000 / (1000000000 / 1000000000 + 8) * 100
        else 0, []⟩,
        ⟨"S3", "Bucket", "b", "/b", 1000000000 / 1000000000, 8, 20,
        if (8 : ℚ) > 0 then
          1000000000 / 1000000000 / (1000000000 / 1000000000 + 8) * 100
        else 0, []⟩] : List Row).length = 1 + 1 + 1 ∧
      (∀ date_str : String, (renderEnumerated date_str
        ([⟨"SMB", "Share", "a", "/a", 1000000000 / 1000000000, 8, 20,
        if (8 : ℚ) > 0 then
          1000000000 / 1000000000 / (1000000000 / 1000000000 + 8) * 100
        else 0, []⟩,
        ⟨"NFS", "Export", "/e", "/e", 1000000000 / 1000000000, 8, 20,
        if (8 : ℚ) > 0 then
          1000000000 / 1000000000 / (1000000000 / 1000000000 + 8) * 100
        else 0, []⟩,
        ⟨"S3", "Bucket", "b", "/b", 1000000000 / 1000000000, 8, 20,
        if (8 : ℚ) > 0 then
          1000000000 / 1000000000 / (1000000000 / 1000000000 + 8) * 100
        else 0, []⟩] : List Row)).length = 1 + (1 + 1 + 1))) :=
  ⟨rfl, C3_enumerated_rows
    [Item.dict [("share_name", "a"), ("fs_path", "/a")]]
    [Item.dict [("export_path", "/e"), ("fs_path", "/e")]]
    [Item.obj [("name", "b"), ("path", "/b")]] 8 20
    { stats := .ok (8000000000, 20000000000), smb_shares := .ok [],
      nfs_exports := .ok [], s3_buckets := .ok [],
      dirAggregates := fun _ => .ok 1000000000,
      metadataPages := fun _ => .ok [] } _ rfl⟩

/-- C7: when neither the CLI nor the config file supplies both a truthy host
and a truthy access token, the run stops with the usage error and an empty
event trace: no connection is opened and no CSV is written. -/
theorem C7_missing_credentials (args : Args) (config : Config)
    (today : String) (w : Cluster)
    (hmiss : (pyOrElse args.host config.host = Option.none ∨
        pyOrElse args.host config.host = some "") ∨
      (pyOrElse args.access_token config.access_token = Option.none ∨
        pyOrElse args.access_token config.access_token = some "")) :
    mainRun args config today w = ([], .error .usage) := by
  rcases hh : pyOrElse args.host config.host with _ | h
  · rcases ht : pyOrElse args.access_token config.access_token with _ | t
    · simp [mainRun, hh, ht]
    · simp [mainRun, hh, ht]
  · rcases ht : pyOrElse args.access_token config.access_token with _ | t
    · simp [mainRun, hh, ht]
    · rw [hh, ht] at hmiss
      have hemp : h.isEmpty ∨ t.isEmpty := by
        rcases hmiss with (h1 | h1) | (h1 | h1)
        · exact absurd h1 (by simp)
        · left
          simp only [Option.some.injEq] at h1
          rw [h1]
          rfl
        · exact absurd h1 (by simp)
        · right
          simp only [Option.some.injEq] at h1
          rw [h1]
          rfl
      simp [mainRun, hh, ht, hemp]

/-- Witness for C7: no CLI flags and an empty config. -/
theorem C7_missing_credentials_witness :
    mainRun ⟨false, Option.none, Option.none⟩ ⟨Option.none, Option.none⟩
      "2026-01-01"
      { stats := .ok (0, 0), smb_shares := .ok [], nfs_exports := .ok [],
        s3_buckets := .ok [], dirAggregates := fun _ => .ok 0,
        metadataPages := fun _ => .ok [] } = ([], .error .usage) :=
  C7_missing_credentials _ _ _ _ (Or.inl (Or.inl rfl))

theorem process_exposure_itemT_no_write (item : Item)
    (proto ety nk pk : String) (free usable : ℚ) (w : Cluster)
    (f : String) (cells : List (List String)) :
    Event.writeCSV f cells ∉
      (process_exposure_itemT item proto ety nk pk free usable w).1 := by
  rcases hn : item.lookup nk with _ | name
  · simp [process_exposure_itemT, hn]
  rcases hp : item.lookup pk with _ | fs_path
  · simp [process_exposure_itemT, hn, hp]
  rcases hc : w.dirAggregates fs_path with e | cap
  · simp [process_exposure_itemT, hn, hp, hc]
  rcases hm : w.metadataPages fs_path with e | pages
  · simp [process_exposure_itemT, hn, hp, hc, hm]
  · simp [process_exposure_itemT, hn, hp, hc, hm]

theorem processListT_no_write (proto ety nk pk : String)
    (free usable : ℚ) (w : Cluster) (f : String)
    (cells : List (List String)) :
    ∀ items : List Item,
      Event.writeCSV f cells ∉
        (processListT items proto ety nk pk free usable w).1 := by
  intro items
  induction items with
  | nil => simp [processListT]
  | cons i is ih =>
    have hi := process_exposure_itemT_no_write i proto ety nk pk free usable
      w f cells
    rcases hx : process_exposure_itemT i proto ety nk pk free usable w
      with ⟨t, res⟩
    rw [hx] at hi
    rcases hy : processListT is proto ety nk pk free usable w with ⟨t2, res2⟩
    rw [hy] at ih
    cases res with
    | error e => simp only [processListT, hx]; exact hi
    | ok r =>
      cases res2 with
      | error e2 =>
        simp only [processListT, hx, hy, List.mem_append]
        rintro (h | h)
        · exact hi h
        · exact ih h
      | ok rs =>
        simp only [processListT, hx, hy, List.mem_append]
        rintro (h | h)
        · exact hi h
        · exact ih h

theorem mainBody_error_no_write (enumerate : Bool) (h tok today : String)
    (w : Cluster) (e : Err)
    (herr : (mainBody enumerate h tok today w).2 = .error e)
    (f : String) (cells : List (List String)) :
    Event.writeCSV f cells ∉ (mainBody enumerate h tok today w).1 := by
  rcases hst : w.stats with es | stats
  · simp [mainBody, hst]
  rcases stats with ⟨freeBytes, totalBytes⟩
  rcases hsh : w.smb_shares with es | smbShares
  · simp [mainBody, hst, hsh]
  rcases hs1 : processListT smbShares "SMB" "Share" "share_name" "fs_path"
      (freeBytes / 1000000000) (totalBytes / 1000000000) w with ⟨t1, res1⟩
  have hw1 := processListT_no_write "SMB" "Share" "share_name" "fs_path"
    (freeBytes / 1000000000) (totalBytes / 1000000000) w f cells smbShares
  rw [hs1] at hw1
  cases res1 with
  | error e1 =>
    simp only [mainBody, hst, hsh, hs1, List.mem_append]
    rintro (hmem | hmem)
    · simp at hmem
    · exact hw1 hmem
  | ok smbRows =>
  rcases hnx : w.nfs_exports with es | nfsExports
  · simp only [mainBody, hst, hsh, hs1, hnx, List.mem_append,
      List.mem_cons, List.mem_singleton]
    rintro ((hmem | hmem) | hmem)
    · simp at hmem
    · exact hw1 hmem
    · simp at hmem
  rcases hs2 : processListT nfsExports "NFS" "Export" "export_path" "fs_path"
      (freeBytes / 1000000000) (totalBytes / 1000000000) w with ⟨t2, res2⟩
  have hw2 := processListT_no_write "NFS" "Export" "export_path" "fs_path"
    (freeBytes / 1000000000) (totalBytes / 1000000000) w f cells nfsExports
  rw [hs2] at hw2
  cases res2 with
  | error e2 =>
    simp only [mainBody, hst, hsh, hs1, hnx, hs2, List.mem_append]
    rintro (((hmem | hmem) | hmem) | hmem)
    · simp at hmem
    · exact hw1 hmem
    · simp at hmem
    · exact hw2 hmem
  | ok nfsRows =>
  rcases hbx : w.s3_buckets with es | s3Buckets
  · simp only [mainBody, hst, hsh, hs1, hnx, hs2, hbx, List.mem_append]
    rintro ((((hmem | hmem) | hmem) | hmem) | hmem)
    · simp at hmem
    · exact hw1 hmem
    · simp at hmem
    · exact hw2 hmem
    · simp at hmem
  rcases hs3 : processListT s3Buckets "S3" "Bucket" "name" "path"
      (freeBytes / 1000000000) (totalBytes / 1000000000) w with ⟨t3, res3⟩
  have hw3 := processListT_no_write "S3" "Bucket" "name" "path"
    (freeBytes / 1000000000) (totalBytes / 1000000000) w f cells s3Buckets
  rw [hs3] at hw3
  cases res3 with
  | error e3 =>
    simp only [mainBody, hst, hsh, hs1, hnx, hs2, hbx, hs3, List.mem_append]
    rintro (((((hmem | hmem) | hmem) | hmem) | hmem) | hmem)
    · simp at hmem
    · exact hw1 hmem
    · simp at hmem
    · exact hw2 hmem
    · simp at hmem
    · exact hw3 hmem
  | ok s3Rows =>
    simp [mainBody, hst, hsh, hs1, hnx, hs2, hbx, hs3] at herr

/-- C8: whenever any external collaborator call fails, the run's result is an
error and its event trace contains no CSV-write event: the report file is
only written after every exposure row has been built, so no partial report
is produced. -/
theorem C8_no_partial_report (args : Args) (config : Config) (today : String)
    (w : Cluster) (e : Err)
    (herr : (mainRun args config today w).2 = .error e)
    (f : String) (cells : List (List String)) :
    Event.writeCSV f cells ∉ (mainRun args config today w).1 := by
  rcases hh : pyOrElse args.host config.host with _ | h
  · rcases ht : pyOrElse args.access_token config.access_token with _ | t
    · simp [mainRun, hh, ht]
    · simp [mainRun, hh, ht]
  · rcases ht : pyOrElse args.access_token config.access_token with _ | t
    · simp [mainRun, hh, ht]
    · by_cases hemp : h.isEmpty ∨ t.isEmpty
      · simp [mainRun, hh, ht, hemp]
      · rw [mainRun] at herr ⊢
        rw [hh, ht] at herr ⊢
        simp only [if_neg hemp] at herr ⊢
        exact mainBody_error_no_write args.enumerate_exposures h t today w e
          herr f cells

theorem jsonEscapeChar_plain (c : Char) (h1 : 0x20 ≤ c.toNat)
    (h2 : c.toNat ≤ 0x7E) (hq : c ≠ '"') (hb : c ≠ '\\') :
    jsonEscapeChar c = [c] := by
  unfold jsonEscapeChar
  rw [if_neg hq, if_neg hb,
    if_neg (show c ≠ '\n' from fun hc => by
      subst hc; exact absurd h1 (by decide)),
    if_neg (show c ≠ '\r' from fun hc => by
      subst hc; exact absurd h1 (by decide)),
    if_neg (show c ≠ '\t' from fun hc => by
      subst hc; exact absurd h1 (by decide)),
    if_neg (show ¬ c.toNat = 8 from by omega),
    if_neg (show ¬ c.toNat = 12 from by omega),
    if_neg (show ¬ c.toNat < 0x20 from by omega),
    if_pos (show c.toNat < 0x7F from by omega)]

theorem parseJStringBody_roundtrip (cs : List Char)
    (h : ∀ c ∈ cs, 0x20 ≤ c.toNat ∧ c.toNat ≤ 0x7E) (rest : List Char) :
    parseJStringBody ((cs.map jsonEscapeChar).flatten ++ '"' :: rest) =
      some (cs, rest) := by
  induction cs with
  | nil =>
    rw [List.map_nil, List.flatten_nil, List.nil_append,
      parseJStringBody.eq_def]
    simp
  | cons c cs ih =>
    have hc := h c (List.mem_cons_self c cs)
    have ihr := ih (fun x hx => h x (List.mem_cons_of_mem c hx))
    by_cases hq : c = '"'
    · subst hq
      rw [List.map_cons, List.flatten_cons,
        show jsonEscapeChar '"' = ['\\', '"'] from rfl]
      simp only [List.cons_append, List.nil_append]
      rw [parseJStringBody.eq_def]
      simp only [reduceIte]
      rw [ihr]
      rfl
    · by_cases hb : c = '\\'
      · subst hb
        rw [List.map_cons, List.flatten_cons,
          show jsonEscapeChar '\\' = ['\\', '\\'] from rfl]
        simp only [List.cons_append, List.nil_append]
        rw [parseJStringBody.eq_def]
        simp only [reduceIte]
        rw [ihr]
        rfl
      · rw [List.map_cons, List.flatten_cons,
          jsonEscapeChar_plain c hc.1 hc.2 hq hb]
        simp only [List.cons_append, List.nil_append]
        rw [parseJStringBody.eq_def]
        simp only [if_neg hq, if_neg hb]
        rw [ihr]
        rfl

theorem parseJValueStr_quote (s : String) (hpr : PrintableAscii s)
    (X : List Char) :
    parseJValueStr ((jsonQuote s).data ++ X) = some (s, X) := by
  have hdata : (jsonQuote s).data =
      '"' :: ((s.data.map jsonEscapeChar).flatten ++ ['"']) := rfl
  rw [hdata, List.cons_append, List.append_assoc, List.singleton_append]
  rw [show parseJValueStr
      ('"' :: ((s.data.map jsonEscapeChar).flatten ++ '"' :: X)) =
      (parseJStringBody ((s.data.map jsonEscapeChar).flatten ++ '"' :: X)).map
        (fun p => (String.mk p.1, p.2)) from rfl]
  rw [parseJStringBody_roundtrip s.data hpr X]
  rfl

theorem skipSpaces_cons_ne (c : Char) (cs : List Char) (h : c ≠ ' ') :
    skipSpaces (c :: cs) = c :: cs := by
  simp [skipSpaces, h]

theorem jsonMembersRender_starts_quote (p : String × String)
    (tl : List (String × String)) :
    ∃ L, (jsonMembersRender
      ((p :: tl).map (fun kv => (kv.1, TagValue.str kv.2)))).data =
      '"' :: L := by
  cases tl with
  | nil =>
    refine ⟨((p.1.data.map jsonEscapeChar).flatten ++ ['"']) ++
      ": ".data ++ (jsonQuote p.2).data, ?_⟩
    rw [List.map_cons, List.map_nil]
    show (jsonQuote p.1 ++ ": " ++ jsonQuote p.2).data = _
    rw [String.data_append, String.data_append]
    rw [show (jsonQuote p.1).data =
      '"' :: ((p.1.data.map jsonEscapeChar).flatten ++ ['"']) from rfl]
    simp [List.append_assoc]
  | cons q tl' =>
    refine ⟨((p.1.data.map jsonEscapeChar).flatten ++ ['"']) ++
      (": ".data ++ ((jsonQuote p.2).data ++ (", ".data ++
        (jsonMembersRender ((q :: tl').map
          (fun kv => (kv.1, TagValue.str kv.2)))).data))), ?_⟩
    rw [List.map_cons]
    show (jsonQuote p.1 ++ ": " ++ jsonQuote p.2 ++ ", " ++
      jsonMembersRender ((q :: tl').map
        (fun kv => (kv.1, TagValue.str kv.2)))).data = _
    rw [String.data_append, String.data_append, String.data_append,
      String.data_append]
    rw [show (jsonQuote p.1).data =
      '"' :: ((p.1.data.map jsonEscapeChar).flatten ++ ['"']) from rfl]
    simp [List.append_assoc]

theorem skipSpaces_colon (X : List Char) : skipSpaces (':' :: X) = ':' :: X :=
  skipSpaces_cons_ne ':' X (by decide)

theorem skipSpaces_space (X : List Char) :
    skipSpaces (' ' :: X) = skipSpaces X := by
  simp [skipSpaces]

theorem skipSpaces_quoteData (s : String) (X : List Char) :
    skipSpaces ((jsonQuote s).data ++ X) = (jsonQuote s).data ++ X := by
  rw [show (jsonQuote s).data =
    '"' :: ((s.data.map jsonEscapeChar).flatten ++ ['"']) from rfl,
    List.cons_append]
  exact skipSpaces_cons_ne '"' _ (by decide)

theorem skipSpaces_rbrace (X : List Char) :
    skipSpaces (rightBraceChar :: X) = rightBraceChar :: X :=
  skipSpaces_cons_ne rightBraceChar X (by decide)

theorem skipSpaces_comma (X : List Char) :
    skipSpaces (',' :: X) = ',' :: X :=
  skipSpaces_cons_ne ',' X (by decide)

theorem parseJMembers_step (f : ℕ) (k v : String) (hk : PrintableAscii k)
    (hv : PrintableAscii v) (tail : List Char) :
    parseJMembers (f + 1)
      ((jsonQuote k).data ++ ':' :: ' ' :: ((jsonQuote v).data ++ tail)) =
      match skipSpaces tail with
      | c :: rest6 =>
        if c = ',' then
          (parseJMembers f (skipSpaces rest6)).map
            (fun p => ((k, v) :: p.1, p.2))
        else if c = rightBraceChar then some ([(k, v)], rest6)
        else Option.none
      | [] => Option.none := by
  simp only [parseJMembers, parseJValueStr_quote k hk,
    parseJValueStr_quote v hv, skipSpaces_colon, skipSpaces_space,
    skipSpaces_quoteData]

theorem jsonMembersRender_single_data (p : String × String)
    (tail : List Char) :
    (jsonMembersRender
      ([p].map (fun kv => (kv.1, TagValue.str kv.2)))).data ++ tail =
      (jsonQuote p.1).data ++ ':' :: ' ' :: ((jsonQuote p.2).data ++ tail) := by
  rw [List.map_cons, List.map_nil]
  show (jsonQuote p.1 ++ ": " ++ jsonQuote p.2).data ++ tail = _
  rw [String.data_append, String.data_append]
  rw [show (": " : String).data = [':', ' '] from rfl]
  simp [List.append_assoc]

theorem jsonMembersRender_cons_data (p q : String × String)
    (tl : List (String × String)) (tail : List Char) :
    (jsonMembersRender
      ((p :: q :: tl).map (fun kv => (kv.1, TagValue.str kv.2)))).data ++
        tail =
      (jsonQuote p.1).data ++ ':' :: ' ' :: ((jsonQuote p.2).data ++
        ',' :: ' ' :: ((jsonMembersRender
          ((q :: tl).map (fun kv => (kv.1, TagValue.str kv.2)))).data ++
          tail)) := by
  rw [List.map_cons]
  show (jsonQuote p.1 ++ ": " ++ jsonQuote p.2 ++ ", " ++
    jsonMembersRender ((q :: tl).map
      (fun kv => (kv.1, TagValue.str kv.2)))).data ++ tail = _
  rw [String.data_append, String.data_append, String.data_append,
    String.data_append]
  rw [show (": " : String).data = [':', ' '] from rfl,
    show (", " : String).data = [',', ' '] from rfl]
  simp [List.append_assoc]

theorem parseJMembers_roundtrip (tags : List (String × String)) :
    ∀ (fuel : ℕ) (rest : List Char), tags ≠ [] → tags.length ≤ fuel →
      (∀ kv ∈ tags, PrintableAscii kv.1 ∧ PrintableAscii kv.2) →
      parseJMembers fuel
        ((jsonMembersRender
          (tags.map (fun kv => (kv.1, TagValue.str kv.2)))).data ++
          rightBraceChar :: rest) = some (tags, rest) := by
  induction tags with
  | nil => intro fuel rest hne; exact absurd rfl hne
  | cons p tl ih =>
    intro fuel rest _ hlen hpr
    cases fuel with
    | zero => simp at hlen
    | succ f =>
      have hp := hpr p (List.mem_cons_self p tl)
      cases tl with
      | nil =>
        rw [jsonMembersRender_single_data p (rightBraceChar :: rest)]
        rw [parseJMembers_step f p.1 p.2 hp.1 hp.2 (rightBraceChar :: rest)]
        rw [skipSpaces_rbrace]
        simp [show ¬ (rightBraceChar = ',') from by decide]
      | cons q tl' =>
        rw [jsonMembersRender_cons_data p q tl' (rightBraceChar :: rest)]
        rw [parseJMembers_step f p.1 p.2 hp.1 hp.2
          (',' :: ' ' :: ((jsonMembersRender ((q :: tl').map
            (fun kv => (kv.1, TagValue.str kv.2)))).data ++
            rightBraceChar :: rest))]
        rw [skipSpaces_comma]
        have hlen' : (q :: tl').length ≤ f := by
          simp only [List.length_cons] at hlen ⊢
          omega
        have hskip : skipSpaces ((jsonMembersRender ((q :: tl').map
            (fun kv => (kv.1, TagValue.str kv.2)))).data ++
            rightBraceChar :: rest) =
            (jsonMembersRender ((q :: tl').map
              (fun kv => (kv.1, TagValue.str kv.2)))).data ++
              rightBraceChar :: rest := by
          obtain ⟨L, hL⟩ := jsonMembersRender_starts_quote q tl'
          rw [hL, List.cons_append]
          exact skipSpaces_cons_ne '"' _ (by decide)
        have hih := ih f rest (by simp) hlen'
          (fun kv hkv => hpr kv (List.mem_cons_of_mem p hkv))
        simp only [reduceIte, skipSpaces_space, hskip, hih, Option.map_some]
        simp

theorem jsonMembersRender_length_ge (tags : List (String × String)) :
    tags.length ≤ (jsonMembersRender
      (tags.map (fun kv => (kv.1, TagValue.str kv.2)))).data.length := by
  induction tags with
  | nil => simp [jsonMembersRender]
  | cons p tl ih =>
    cases tl with
    | nil =>
      obtain ⟨L, hL⟩ := jsonMembersRender_starts_quote p []
      rw [hL]
      simp
    | cons q tl' =>
      have hq := jsonMembersRender_cons_data p q tl' []
      rw [List.append_nil] at hq
      rw [hq]
      simp only [List.length_append, List.length_cons, List.append_nil]
      simp only [List.length_cons] at ih ⊢
      omega

/-- C5: for tags with printable-ASCII keys and values, parsing the JSON text
written into the tags cell of a CSV data row (the last cell, in both
enumerated and dedup modes) returns exactly the original mapping. -/
theorem C5_tags_round_trip (tags : List (String × String))
    (hpr : ∀ kv ∈ tags, PrintableAscii kv.1 ∧ PrintableAscii kv.2) :
    jsonParseTags (jsonDumpsTags
      (tags.map (fun kv => (kv.1, TagValue.str kv.2)))) = some tags ∧
    (∀ (date_str : String) (r : Row),
      (renderEnumRow date_str r).getLast? = some (jsonDumpsTags r.tags)) ∧
    (∀ (date_str : String) (dr : DedupRow),
      (renderDedupRow date_str dr).getLast? = some (jsonDumpsTags dr.tags)) := by
  refine ⟨?_, fun d r => rfl, fun d dr => rfl⟩
  cases tags with
  | nil => rfl
  | cons p tl =>
    obtain ⟨L, hL⟩ := jsonMembersRender_starts_quote p tl
    have hdata : (jsonDumpsTags
        ((p :: tl).map (fun kv => (kv.1, TagValue.str kv.2)))).data =
        leftBraceChar :: ((jsonMembersRender
          ((p :: tl).map (fun kv => (kv.1, TagValue.str kv.2)))).data ++
          [rightBraceChar]) := by
      show ("\x7b" ++ jsonMembersRender _ ++ "\x7d").data = _
      rw [String.data_append, String.data_append]
      rw [show ("\x7b" : String).data = [leftBraceChar] from by decide,
        show ("\x7d" : String).data = [rightBraceChar] from by decide]
      simp
    have hfuel : (p :: tl).length ≤ (jsonDumpsTags
        ((p :: tl).map (fun kv => (kv.1, TagValue.str kv.2)))).data.length := by
      rw [hdata]
      have hge := jsonMembersRender_length_ge (p :: tl)
      simp only [List.length_cons, List.length_append,
        List.length_singleton] at hge ⊢
      omega
    have hrt := parseJMembers_roundtrip (p :: tl)
      ((jsonDumpsTags
        ((p :: tl).map (fun kv => (kv.1, TagValue.str kv.2)))).data.length)
      [] (by simp) hfuel hpr
    have hs1 : ∀ X : List Char,
        skipSpaces (leftBraceChar :: X) = leftBraceChar :: X :=
      fun X => skipSpaces_cons_ne _ _ (by decide)
    have hs2 : ∀ X : List Char, skipSpaces ('"' :: X) = '"' :: X :=
      fun X => skipSpaces_cons_ne _ _ (by decide)
    unfold jsonParseTags
    rw [hdata] at hrt ⊢
    rw [hL] at hrt ⊢
    simp only [List.cons_append, List.length_cons, List.length_append,
      List.length_singleton, List.length_nil, Nat.zero_add] at hrt ⊢
    simp [hs1, hs2, hrt, show ¬ ('"' = rightBraceChar) from by decide,
      show skipSpaces ([] : List Char) = [] from rfl]

/-- Witness for C5 at the mapping `{"team": "eng"}`. -/
theorem C5_tags_round_trip_witness :
    (∀ kv ∈ [("team", "eng")], PrintableAscii kv.1 ∧ PrintableAscii kv.2) ∧
      jsonParseTags (jsonDumpsTags
        ([("team", "eng")].map (fun kv => (kv.1, TagValue.str kv.2)))) =
        some [("team", "eng")] :=
  ⟨by decide, (C5_tags_round_trip [("team", "eng")] (by decide)).1⟩

theorem digitChar_isDigit (n : ℕ) (h : n < 10) :
    (Nat.digitChar n).isDigit = true := by
  interval_cases n <;> decide

theorem pad3digits_digits (m : ℕ) :
    ∀ c ∈ (pad3digits m).data, c.isDigit = true := by
  intro c hc
  rw [show (pad3digits m).data = [Nat.digitChar (m / 100 % 10),
    Nat.digitChar (m / 10 % 10), Nat.digitChar (m % 10)] from rfl] at hc
  simp only [List.mem_cons, List.not_mem_nil, or_false] at hc
  rcases hc with hc | hc | hc <;>
    (subst hc; exact digitChar_isDigit _ (Nat.mod_lt _ (by norm_num)))

theorem formatFloat3_two : formatFloat3 2 = "2.000" := by
  have h1 : roundHalfEven (|(2 : ℚ)| * 1000) = 2000 := by
    unfold roundHalfEven
    norm_num
  simp only [formatFloat3, h1]
  norm_num
  decide

theorem formatFloat3_eight : formatFloat3 8 = "8.000" := by
  have h1 : roundHalfEven (|(8 : ℚ)| * 1000) = 8000 := by
    unfold roundHalfEven
    norm_num
  simp only [formatFloat3, h1]
  norm_num
  decide

theorem formatFloat3_twenty : formatFloat3 20 = "20.000" := by
  have h1 : roundHalfEven (|(20 : ℚ)| * 1000) = 20000 := by
    unfold roundHalfEven
    norm_num
  simp only [formatFloat3, h1]
  norm_num
  decide

/-- C9 counterexample: the data row written for the scenario share carries
the run date as its first cell, so it is not the nine-cell list the claim
states (it is that list preceded by the date). -/
theorem C9_counterexample :
    renderEnumRow "2025-01-01" ⟨"SMB", "Share", "eng", "/eng", 2, 8, 20, 20, []⟩ =
      ["2025-01-01", "SMB", "Share", "eng", "/eng", "2.000", "8.000",
        "20.000", "20.000", "\x7b\x7d"] ∧
    renderEnumRow "2025-01-01" ⟨"SMB", "Share", "eng", "/eng", 2, 8, 20, 20, []⟩ ≠
      ["SMB", "Share", "eng", "/eng", "2.000", "8.000", "20.000", "20.000",
        "\x7b\x7d"] := by
  have h : renderEnumRow "2025-01-01"
      ⟨"SMB", "Share", "eng", "/eng", 2, 8, 20, 20, []⟩ =
      ["2025-01-01", "SMB", "Share", "eng", "/eng", "2.000", "8.000",
        "20.000", "20.000", "\x7b\x7d"] := by
    simp only [renderEnumRow, formatFloat3_two, formatFloat3_eight,
      formatFloat3_twenty]
    rfl
  refine ⟨h, ?_⟩
  rw [h]
  intro hc
  exact absurd (congrArg List.length hc) (by decide)

/-- C9 amended: every floating-point field is rendered with a dot followed
by exactly three decimal digits, and the scenario share (used 2 GB, free
8 GB, usable 20 GB, no tags) produces the claimed nine cells preceded by
the run date. -/
theorem C9_three_decimals :
    (∀ q : ℚ, ∃ pre : String,
      formatFloat3 q = pre ++ "." ++
        pad3digits ((roundHalfEven (|q| * 1000)).toNat % 1000) ∧
      (pad3digits ((roundHalfEven (|q| * 1000)).toNat % 1000)).length = 3 ∧
      (∀ c ∈ (pad3digits ((roundHalfEven (|q| * 1000)).toNat % 1000)).data,
        c.isDigit = true)) ∧
    (∀ date_str : String,
      renderEnumRow date_str ⟨"SMB", "Share", "eng", "/eng", 2, 8, 20, 20, []⟩ =
        date_str :: ["SMB", "Share", "eng", "/eng", "2.000", "8.000",
          "20.000", "20.000", "\x7b\x7d"]) := by
  constructor
  · intro q
    by_cases hq : q < 0
    · refine ⟨"-" ++ toString ((roundHalfEven (|q| * 1000)).toNat / 1000),
        ?_, rfl, pad3digits_digits _⟩
      simp only [formatFloat3, if_pos hq]
      rw [String.append_assoc, String.append_assoc,
        String.append_assoc]
    · refine ⟨toString ((roundHalfEven (|q| * 1000)).toNat / 1000),
        ?_, rfl, pad3digits_digits _⟩
      simp only [formatFloat3, if_neg hq]
  · intro date_str
    simp only [renderEnumRow, formatFloat3_two, formatFloat3_eight,
      formatFloat3_twenty]
    rfl

/-- Witness for C8: the cluster-stats call fails, the run errors out, and
the trace holds no write event. -/
theorem C8_no_partial_report_witness :
    (mainRun ⟨false, some "host", some "tok"⟩ ⟨Option.none, Option.none⟩
      "2026-01-01"
      { stats := .error "boom", smb_shares := .ok [], nfs_exports := .ok [],
        s3_buckets := .ok [], dirAggregates := fun _ => .ok 0,
        metadataPages := fun _ => .ok [] }).2 =
      .error (.external "boom") ∧
    Event.writeCSV "out.csv" [] ∉
      (mainRun ⟨false, some "host", some "tok"⟩ ⟨Option.none, Option.none⟩
        "2026-01-01"
        { stats := .error "boom", smb_shares := .ok [],
          nfs_exports := .ok [], s3_buckets := .ok [],
          dirAggregates := fun _ => .ok 0,
          metadataPages := fun _ => .ok [] }).1 :=
  ⟨rfl, C8_no_partial_report ⟨false, some "host", some "tok"⟩
    ⟨Option.none, Option.none⟩ "2026-01-01"
    { stats := .error "boom", smb_shares := .ok [], nfs_exports := .ok [],
      s3_buckets := .ok [], dirAggregates := fun _ => .ok 0,
      metadataPages := fun _ => .ok [] } (.external "boom") rfl "out.csv" []⟩

end ShareCapacity
